import Mathlib

/-
Verification of the EduSeva client-side caching layer (src/lib/cache.ts) and
its integration points (PDFUpload.tsx, Quiz.tsx, QuestionPaper.tsx).

The cache is a wrapper around the browser localStorage: values are JSON
serialized cache items of shape (data, timestamp, expiresIn?).  We embed the
JavaScript value universe, the serialization boundary and the storage medium,
and translate each CacheManager method body from the source.
-/

namespace EduSeva

/-- JavaScript values as produced by the JSON layer, plus the undefined value
(which property access on a missing field yields).  Numbers are modelled as
integers: every numeric field this code writes or compares is an integral
millisecond count (Date.now timestamps and TTL durations). -/
inductive JsVal where
  | undef
  | null
  | bool (b : Bool)
  | num (n : Int)
  | str (s : String)
  | arr (elems : List JsVal)
  | obj (fields : List (String × JsVal))
deriving Repr

/-- Result of a JavaScript expression: a value, or a thrown exception. -/
abbrev JsRes (α : Type) := Except Unit α

/-- JavaScript truthiness of a value, as used by conditions such as
the source line if (cacheItem.expiresIn).  The integer 0 is falsy,
matching the JS number 0 (NaN does not arise for integer models). -/
def truthy : JsVal → Bool
  | .undef => false
  | .null => false
  | .bool b => b
  | .num n => n != 0
  | .str s => !(s == "")
  | .arr _ => true
  | .obj _ => true

/-- JavaScript ToNumber coercion on the values this code can meet, with none
standing for NaN.  Strings coerce through integral numeric parsing (the code
never stores numeric strings in these fields); arrays and objects, whose
coercion goes through ToPrimitive, are mapped to NaN as an approximation that
no reachable value exercises. -/
def toNumber : JsVal → Option Int
  | .undef => none
  | .null => some 0
  | .bool b => some (if b then 1 else 0)
  | .num n => some n
  | .str s => if s.trim == "" then some 0 else s.trim.toInt?
  | .arr _ => none
  | .obj _ => none

/-- The source expression Date.now() - cacheItem.timestamp > cacheItem.expiresIn:
subtraction and comparison under ToNumber, where a NaN operand makes the
comparison false. -/
def isExpiredAt (now : Int) (ts exp : JsVal) : Bool :=
  match toNumber ts, toNumber exp with
  | some t, some e => decide (now - t > e)
  | _, _ => false

/-- Lookup of a field in a JSON object, first occurrence winning (the objects
this code builds have no duplicate keys). -/
def fieldLookup : List (String × JsVal) → String → Option JsVal
  | [], _ => none
  | (a, v) :: t, f => if a = f then some v else fieldLookup t f

/-- JavaScript property access base.f for the field names the cache reads:
throws a TypeError when the base is null or undefined, looks the field up on
objects (yielding undefined when absent), and yields undefined on the other
primitives and on arrays, none of which carry these property names. -/
def getField (base : JsVal) (f : String) : JsRes JsVal :=
  match base with
  | .undef => .error ()
  | .null => .error ()
  | .obj fields => .ok ((fieldLookup fields f).getD .undef)
  | _ => .ok .undef

mutual

/-- Normalization performed by a JSON.stringify / JSON.parse round trip on a
defined value: undefined elements of arrays become null, object fields whose
value is undefined are dropped, everything else is preserved. -/
def scrub : JsVal → JsVal
  | .undef => .null
  | .null => .null
  | .bool b => .bool b
  | .num n => .num n
  | .str s => .str s
  | .arr xs => .arr (scrubList xs)
  | .obj fs => .obj (scrubFields fs)

/-- Round-trip normalization of the elements of a JSON array. -/
def scrubList : List JsVal → List JsVal
  | [] => []
  | x :: xs => scrub x :: scrubList xs

/-- Round-trip normalization of the fields of a JSON object: a field holding
undefined is omitted by JSON.stringify. -/
def scrubFields : List (String × JsVal) → List (String × JsVal)
  | [] => []
  | (_, .undef) :: fs => scrubFields fs
  | (k, v) :: fs => (k, scrub v) :: scrubFields fs

end

mutual

/-- A value is JSON-pure when it contains no undefined anywhere; such values
survive a stringify / parse round trip unchanged (deep equality). -/
def isPure : JsVal → Bool
  | .undef => false
  | .null => true
  | .bool _ => true
  | .num _ => true
  | .str _ => true
  | .arr xs => isPureList xs
  | .obj fs => isPureFields fs

/-- Purity of all elements of an array. -/
def isPureList : List JsVal → Bool
  | [] => true
  | x :: xs => isPure x && isPureList xs

/-- Purity of all field values of an object. -/
def isPureFields : List (String × JsVal) → Bool
  | [] => true
  | (_, v) :: fs => isPure v && isPureFields fs

end

/-- A string held in localStorage, abstracted by its behaviour under
JSON.parse: either parsing throws on it (corrupted or foreign content, the
empty string included, which the falsy check in get also maps to a miss), or
it parses to a definite JSON value. -/
inductive Stored where
  | unparseable
  | parsed (v : JsVal)
deriving Repr

/-- JSON.parse on a stored string. -/
def jsonParse : Stored → JsRes JsVal
  | .unparseable => .error ()
  | .parsed v => .ok v

/-- The localStorage medium: an association of string keys to stored strings.
It is shared process-wide, so it may also hold keys that do not belong to the
cache namespace. -/
abbrev Storage := List (String × Stored)

/-- localStorage.getItem: the stored string under a key, or null. -/
def Storage.getItem : Storage → String → Option Stored
  | [], _ => none
  | (a, b) :: t, k => if a = k then some b else Storage.getItem t k

/-- localStorage.removeItem: deletes the entry under a key, if any. -/
def Storage.removeItem : Storage → String → Storage
  | [], _ => []
  | (a, b) :: t, k =>
    if a = k then Storage.removeItem t k else (a, b) :: Storage.removeItem t k

/-- localStorage.setItem: overwrites the entry under a key. -/
def Storage.setItem (st : Storage) (k : String) (v : Stored) : Storage :=
  (k, v) :: st.removeItem k

/-- The Cache Key Registry: the seven symbolic slot names of CACHE_KEYS in
src/lib/cache.ts. -/
inductive CacheKey where
  | flashcards
  | quiz
  | mindmap
  | summary
  | question_paper
  | podcast
  | chat_history
deriving DecidableEq, Repr

/-- The slot name each registry key maps to (the CACHE_KEYS values). -/
def CacheKey.slot : CacheKey → String
  | .flashcards => "flashcards"
  | .quiz => "quiz"
  | .mindmap => "mindmap"
  | .summary => "summary"
  | .question_paper => "question_paper"
  | .podcast => "podcast"
  | .chat_history => "chat_history"

/-- Object.values(CACHE_KEYS), in source order. -/
def CACHE_KEYS : List CacheKey :=
  [.flashcards, .quiz, .mindmap, .summary, .question_paper, .podcast, .chat_history]

namespace CacheManager

/-- CacheManager.getKey: namespaces a registry key with the fixed product
tag CACHE_PREFIX = eduseva_. -/
def getKey (key : CacheKey) : String :=
  "eduseva_" ++ key.slot

/-- The JSON value JSON.stringify produces for the cache item written by set:
the object (data, timestamp, expiresIn), where a field holding undefined — the
expiresIn field when no TTL is passed, or a non-serializable data value — is
dropped by stringify and nested undefined is normalized. -/
def cacheItemJson (data : JsVal) (now : Int) (expiresIn : Option Int) : JsVal :=
  .obj (scrubFields
    [("data", data),
     ("timestamp", .num now),
     ("expiresIn", match expiresIn with | some n => .num n | none => .undef)])

/-- The try body of CacheManager.set: builds the cache item and writes it with
localStorage.setItem.  The storageFails flag models the medium throwing (for
example quota exceeded); the write then throws before changing the store. -/
def setBody (st : Storage) (key : CacheKey) (data : JsVal) (expiresIn : Option Int)
    (now : Int) (storageFails : Bool) : JsRes Storage :=
  if storageFails then .error ()
  else .ok (st.setItem (getKey key) (.parsed (cacheItemJson data now expiresIn)))

/-- CacheManager.set with its try/catch: a storage error is swallowed
(console.error only) and the method returns normally. -/
def setE (st : Storage) (key : CacheKey) (data : JsVal) (expiresIn : Option Int)
    (now : Int) (storageFails : Bool) : JsRes Storage :=
  match setBody st key data expiresIn now storageFails with
  | .ok st2 => .ok st2
  | .error _ => .ok st

/-- The storage after CacheManager.set (which never throws). -/
def set (st : Storage) (key : CacheKey) (data : JsVal) (expiresIn : Option Int)
    (now : Int) (storageFails : Bool) : Storage :=
  match setE st key data expiresIn now storageFails with
  | .ok st2 => st2
  | .error _ => st

/-- CacheManager.remove: deletes the namespaced entry.  Its try/catch is
degenerate in the model since removeItem does not throw. -/
def remove (st : Storage) (key : CacheKey) : Storage :=
  st.removeItem (getKey key)

/-- The try body of CacheManager.get: read the stored string (a falsy item is
an immediate miss), JSON.parse it, take the expiry branch when the expiresIn
field is truthy (removing an expired entry and returning null), otherwise
return the data field.  Returns the result value together with the storage
left behind. -/
def getBody (st : Storage) (key : CacheKey) (now : Int) : JsRes (JsVal × Storage) := do
  match st.getItem (getKey key) with
  | none => return (.null, st)
  | some item => do
    let cacheItem ← jsonParse item
    let exp ← getField cacheItem "expiresIn"
    let expired ←
      if truthy exp then do
        let ts ← getField cacheItem "timestamp"
        pure (isExpiredAt now ts exp)
      else
        pure false
    if expired then
      return (.null, remove st key)
    else do
      let d ← getField cacheItem "data"
      return (d, st)

/-- CacheManager.get with its try/catch: any exception inside the body (parse
failure, property access on a null item) is swallowed and null is returned,
the storage unchanged. -/
def get (st : Storage) (key : CacheKey) (now : Int) : JsVal × Storage :=
  match getBody st key now with
  | .ok r => r
  | .error _ => (.null, st)

/-- CacheManager.clear: removes every slot of the registry, in CACHE_KEYS
order. -/
def clear (st : Storage) : Storage :=
  CACHE_KEYS.foldl (fun s k => remove s k) st

/-- Strict inequality with null, as in the source test get(key) !== null:
true unless the value is exactly the null value. -/
def notNull : JsVal → Bool
  | .null => false
  | _ => true

/-- CacheManager.has: delegates to get and tests the result against null, so
it also triggers expiry-on-read; returns the flag and the storage get left. -/
def has (st : Storage) (key : CacheKey) (now : Int) : Bool × Storage :=
  let r := get st key now
  (notNull r.1, r.2)

end CacheManager

/-- Normalization the data field undergoes between set and get: a top-level
undefined is dropped by stringify and read back as undefined, any other value
is read back as its stringify round trip. -/
def scrubData : JsVal → JsVal
  | .undef => .undef
  | v => scrub v

/-- Primitive JSON values: numbers, strings and booleans.  These parse
successfully but carry none of the cache item fields. -/
def isPrimitiveJson : JsVal → Bool
  | .num _ => true
  | .str _ => true
  | .bool _ => true
  | _ => false

namespace Quiz

end Quiz

namespace QuestionPaper

end QuestionPaper

namespace Summary

end Summary

namespace Podcast

end Podcast

namespace ChatInterface

end ChatInterface

/-- Observable events of the per-file body of processFiles in
src/components/PDFUpload.tsx, in program order. -/
inductive UploadEvent where
  | fileAdded
  | statusCompleted
  | statusErrored
  | toastSuccess (msg : String)
  | toastError (msg : String)
  | cacheCleared
  | navigated (path : String)
deriving DecidableEq, Repr

/-- The field of an upload response the handler reads. -/
structure UploadResponse where
  message : String
deriving Repr

/-- Translation of one iteration of processFiles: the file entry is added,
then the awaited uploadDocument call either succeeds — cache.clear(), status
completed, success toast, then the delayed navigate to /chat — or throws —
status error and an error toast, the cache untouched.  Returns the events in
order and the storage left behind. -/
def processFile (st : Storage) (api : Except String UploadResponse) :
    List UploadEvent × Storage :=
  match api with
  | .ok resp =>
    ([.fileAdded, .cacheCleared, .statusCompleted, .toastSuccess resp.message,
      .navigated "/chat"], CacheManager.clear st)
  | .error msg =>
    ([.fileAdded, .statusErrored, .toastError msg], st)

/-! Basic lemmas about the storage medium and the cache manager. -/

theorem Storage.getItem_removeItem (st : Storage) (k k2 : String) :
    (st.removeItem k).getItem k2 = if k2 = k then none else st.getItem k2 := by
  induction st with
  | nil => by_cases h : k2 = k <;> simp [Storage.removeItem, Storage.getItem, h]
  | cons p t ih =>
    rcases p with ⟨a, b⟩
    by_cases h1 : a = k <;> by_cases h2 : a = k2 <;> by_cases h3 : k2 = k <;>
      simp_all [Storage.removeItem, Storage.getItem]

theorem Storage.getItem_setItem (st : Storage) (k k2 : String) (v : Stored) :
    (st.setItem k v).getItem k2 = if k2 = k then some v else st.getItem k2 := by
  by_cases h : k2 = k
  · simp [Storage.setItem, Storage.getItem, Storage.getItem_removeItem, h]
  · simp [Storage.setItem, Storage.getItem, Storage.getItem_removeItem, h]
    exact fun hh => absurd hh.symm h

theorem mem_CACHE_KEYS (k : CacheKey) : k ∈ CACHE_KEYS := by
  cases k <;> simp [CACHE_KEYS]

theorem foldl_remove_getItem_none (ks : List CacheKey) (st : Storage) (x : String)
    (h : st.getItem x = none) :
    (ks.foldl (fun s k => CacheManager.remove s k) st).getItem x = none := by
  induction ks generalizing st with
  | nil => simpa using h
  | cons a t ih =>
    simp only [List.foldl_cons]
    apply ih
    simp [CacheManager.remove, Storage.getItem_removeItem, h]

theorem foldl_remove_getItem_mem (ks : List CacheKey) (st : Storage) (k : CacheKey)
    (h : k ∈ ks) :
    (ks.foldl (fun s k => CacheManager.remove s k) st).getItem (CacheManager.getKey k) = none := by
  induction ks generalizing st with
  | nil => cases h
  | cons a t ih =>
    simp only [List.foldl_cons]
    rcases List.mem_cons.mp h with h1 | h1
    · subst h1
      apply foldl_remove_getItem_none
      simp [CacheManager.remove, Storage.getItem_removeItem]
    · exact ih _ h1

theorem getItem_clear (st : Storage) (k : CacheKey) :
    (CacheManager.clear st).getItem (CacheManager.getKey k) = none :=
  foldl_remove_getItem_mem CACHE_KEYS st k (mem_CACHE_KEYS k)

theorem getItem_remove_self (st : Storage) (k : CacheKey) :
    (CacheManager.remove st k).getItem (CacheManager.getKey k) = none := by
  simp [CacheManager.remove, Storage.getItem_removeItem]

theorem get_of_getItem_none (st : Storage) (k : CacheKey) (now : Int)
    (h : st.getItem (CacheManager.getKey k) = none) :
    CacheManager.get st k now = (.null, st) := by
  simp [CacheManager.get, CacheManager.getBody, h, pure, Except.pure]

theorem get_clear (st : Storage) (k : CacheKey) (now : Int) :
    CacheManager.get (CacheManager.clear st) k now = (.null, CacheManager.clear st) :=
  get_of_getItem_none _ _ _ (getItem_clear st k)

/-! Lemmas about the serialized cache item and the read path after a write. -/

theorem getField_cacheItem_expiresIn (v : JsVal) (t : Int) (e : Option Int) :
    getField (CacheManager.cacheItemJson v t e) "expiresIn" =
      .ok (match e with | some n => .num n | none => .undef) := by
  cases v <;> cases e <;>
    simp [CacheManager.cacheItemJson, scrubFields, scrub, getField, fieldLookup]

theorem getField_cacheItem_timestamp (v : JsVal) (t : Int) (e : Option Int) :
    getField (CacheManager.cacheItemJson v t e) "timestamp" = .ok (.num t) := by
  cases v <;> cases e <;>
    simp [CacheManager.cacheItemJson, scrubFields, scrub, getField, fieldLookup]

theorem getField_cacheItem_data (v : JsVal) (t : Int) (e : Option Int) :
    getField (CacheManager.cacheItemJson v t e) "data" = .ok (scrubData v) := by
  cases v <;> cases e <;>
    simp [CacheManager.cacheItemJson, scrubFields, scrub, getField, fieldLookup, scrubData]

theorem set_false_eq (st : Storage) (key : CacheKey) (v : JsVal) (e : Option Int) (t : Int) :
    CacheManager.set st key v e t false =
      st.setItem (CacheManager.getKey key) (.parsed (CacheManager.cacheItemJson v t e)) := by
  simp [CacheManager.set, CacheManager.setE, CacheManager.setBody]

theorem get_set_none (st : Storage) (key : CacheKey) (v : JsVal) (t0 now : Int) :
    CacheManager.get (CacheManager.set st key v none t0 false) key now =
      (scrubData v, CacheManager.set st key v none t0 false) := by
  rw [set_false_eq]
  simp [CacheManager.get, CacheManager.getBody, Storage.getItem_setItem, jsonParse,
    getField_cacheItem_expiresIn, getField_cacheItem_data, truthy,
    bind, Except.bind, pure, Except.pure]

theorem get_set_zero (st : Storage) (key : CacheKey) (v : JsVal) (t0 now : Int) :
    CacheManager.get (CacheManager.set st key v (some 0) t0 false) key now =
      (scrubData v, CacheManager.set st key v (some 0) t0 false) := by
  rw [set_false_eq]
  simp [CacheManager.get, CacheManager.getBody, Storage.getItem_setItem, jsonParse,
    getField_cacheItem_expiresIn, getField_cacheItem_data, truthy,
    bind, Except.bind, pure, Except.pure]

theorem get_set_live (st : Storage) (key : CacheKey) (v : JsVal) (ttl t0 now : Int)
    (h0 : ttl ≠ 0) (h1 : ¬(now - t0 > ttl)) :
    CacheManager.get (CacheManager.set st key v (some ttl) t0 false) key now =
      (scrubData v, CacheManager.set st key v (some ttl) t0 false) := by
  rw [set_false_eq]
  simp [CacheManager.get, CacheManager.getBody, Storage.getItem_setItem, jsonParse,
    getField_cacheItem_expiresIn, getField_cacheItem_timestamp, getField_cacheItem_data,
    truthy, isExpiredAt, toNumber, h0, h1,
    bind, Except.bind, pure, Except.pure]

theorem get_set_expired (st : Storage) (key : CacheKey) (v : JsVal) (ttl t0 now : Int)
    (h0 : ttl ≠ 0) (h1 : now - t0 > ttl) :
    CacheManager.get (CacheManager.set st key v (some ttl) t0 false) key now =
      (.null, CacheManager.remove (CacheManager.set st key v (some ttl) t0 false) key) := by
  rw [set_false_eq]
  simp [CacheManager.get, CacheManager.getBody, Storage.getItem_setItem, jsonParse,
    getField_cacheItem_expiresIn, getField_cacheItem_timestamp,
    truthy, isExpiredAt, toNumber, h0, h1,
    bind, Except.bind, pure, Except.pure]

/-! Purity: values with no undefined survive the serialization round trip. -/

mutual

theorem scrub_of_isPure : ∀ v : JsVal, isPure v = true → scrub v = v
  | .undef, h => by simp [isPure] at h
  | .null, _ => rfl
  | .bool _, _ => rfl
  | .num _, _ => rfl
  | .str _, _ => rfl
  | .arr xs, h => by
      rw [scrub, scrubList_of_isPureList xs (by simpa [isPure] using h)]
  | .obj fs, h => by
      rw [scrub, scrubFields_of_isPureFields fs (by simpa [isPure] using h)]

theorem scrubList_of_isPureList : ∀ xs : List JsVal, isPureList xs = true → scrubList xs = xs
  | [], _ => rfl
  | x :: xs, h => by
      rw [isPureList, Bool.and_eq_true] at h
      rw [scrubList, scrub_of_isPure x h.1, scrubList_of_isPureList xs h.2]

theorem scrubFields_of_isPureFields :
    ∀ fs : List (String × JsVal), isPureFields fs = true → scrubFields fs = fs
  | [], _ => rfl
  | (k, v) :: fs, h => by
      rw [isPureFields, Bool.and_eq_true] at h
      cases v with
      | undef => simp [isPure] at h
      | null => simp [scrubFields, scrub_of_isPure _ h.1, scrubFields_of_isPureFields fs h.2]
      | bool b => simp [scrubFields, scrub_of_isPure _ h.1, scrubFields_of_isPureFields fs h.2]
      | num n => simp [scrubFields, scrub_of_isPure _ h.1, scrubFields_of_isPureFields fs h.2]
      | str s => simp [scrubFields, scrub_of_isPure _ h.1, scrubFields_of_isPureFields fs h.2]
      | arr xs => simp [scrubFields, scrub_of_isPure _ h.1, scrubFields_of_isPureFields fs h.2]
      | obj fs2 => simp [scrubFields, scrub_of_isPure _ h.1, scrubFields_of_isPureFields fs h.2]

end

theorem scrubData_of_isPure (v : JsVal) (h : isPure v = true) : scrubData v = v := by
  cases v with
  | undef => simp [isPure] at h
  | null => rfl
  | bool b => simp [scrubData, scrub_of_isPure _ h]
  | num n => simp [scrubData, scrub_of_isPure _ h]
  | str s => simp [scrubData, scrub_of_isPure _ h]
  | arr xs => simp [scrubData, scrub_of_isPure _ h]
  | obj fs => simp [scrubData, scrub_of_isPure _ h]

/-! Claim theorems. -/

/-- C1: whenever a document upload completes successfully, cache.clear() is
invoked before the user is redirected to the chat feature — the cacheCleared
event precedes the navigated event in the success trace of processFiles — and
afterwards get returns a miss for every key of the Cache Key Registry, even
for slots that were populated before the upload (the storage is arbitrary). -/
theorem c1_upload_success_clears_cache_before_redirect (st : Storage) (resp : UploadResponse) :
    (∃ pre mid post,
      (processFile st (.ok resp)).1 =
        pre ++ UploadEvent.cacheCleared :: mid ++ UploadEvent.navigated "/chat" :: post) ∧
    (∀ (k : CacheKey) (now : Int),
      CacheManager.get (processFile st (.ok resp)).2 k now =
        (.null, (processFile st (.ok resp)).2)) := by
  constructor
  · exact ⟨[.fileAdded], [.statusCompleted, .toastSuccess resp.message], [], rfl⟩
  · intro k now
    simpa [processFile] using get_clear st k now

/-- C2 counterexample: the claim quantifies over every ttl, but an entry
written with ttl = 0 is not expired by a read after elapsed time 5 > 0 — the
expiry branch requires a truthy expiresIn and 0 is falsy — so get returns the
stored value, not the miss signal, and has reports a hit. -/
theorem c2_counterexample_zero_ttl_not_expired :
    CacheManager.get (CacheManager.set [] .quiz (.str "x") (some 0) 0 false) .quiz 5 =
      (.str "x", CacheManager.set [] .quiz (.str "x") (some 0) 0 false) ∧
    (CacheManager.has (CacheManager.set [] .quiz (.str "x") (some 0) 0 false) .quiz 5).1 = true ∧
    (5 : Int) - 0 > 0 :=
  ⟨rfl, rfl, by norm_num⟩

/-- C2 amended: for every key, value and nonzero ttl, if the entry was written
by set(key, value, ttl) and get(key) is invoked after elapsed time strictly
greater than ttl, then get returns the miss signal, removes the entry from
storage as a side effect of the read, and a subsequent has(key) returns
false. -/
theorem c2_expired_entry_evicted_on_read (st : Storage) (key : CacheKey) (v : JsVal)
    (ttl t0 now : Int) (h0 : ttl ≠ 0) (h1 : now - t0 > ttl) :
    CacheManager.get (CacheManager.set st key v (some ttl) t0 false) key now =
      (.null, CacheManager.remove (CacheManager.set st key v (some ttl) t0 false) key) ∧
    (CacheManager.has
        (CacheManager.remove (CacheManager.set st key v (some ttl) t0 false) key)
        key now).1 = false := by
  refine ⟨get_set_expired st key v ttl t0 now h0 h1, ?_⟩
  simp [CacheManager.has, get_of_getItem_none _ _ _ (getItem_remove_self _ key),
    CacheManager.notNull]

/-- C2 witness: the amended theorem applied at ttl = 7, written at time 0 and
read at time 10. -/
theorem c2_expired_entry_evicted_on_read_witness :
    CacheManager.get (CacheManager.set [] .quiz (.str "a") (some 7) 0 false) .quiz 10 =
      (.null, CacheManager.remove (CacheManager.set [] .quiz (.str "a") (some 7) 0 false) .quiz) ∧
    (CacheManager.has
        (CacheManager.remove (CacheManager.set [] .quiz (.str "a") (some 7) 0 false) .quiz)
        .quiz 10).1 = false :=
  c2_expired_entry_evicted_on_read [] .quiz (.str "a") 7 0 10 (by norm_num) (by norm_num)

/-- C3: for every registry key and every JSON-serializable value — a value
with no undefined inside, which is exactly what survives the stringify and
parse round trip — set(key, value, ttl?) followed immediately by get(key),
with no intervening operations and no elapsed time beyond a nonnegative ttl,
returns a value deep-equal to the one written, leaving the storage as set
left it. -/
theorem c3_set_then_get_returns_deep_equal_value (st : Storage) (key : CacheKey) (v : JsVal)
    (ttlOpt : Option Int) (t : Int)
    (hv : isPure v = true) (httl : ∀ n, ttlOpt = some n → 0 ≤ n) :
    CacheManager.get (CacheManager.set st key v ttlOpt t false) key t =
      (v, CacheManager.set st key v ttlOpt t false) := by
  cases ttlOpt with
  | none => rw [get_set_none, scrubData_of_isPure v hv]
  | some n =>
    by_cases h0 : n = 0
    · subst h0; rw [get_set_zero, scrubData_of_isPure v hv]
    · have hn := httl n rfl
      rw [get_set_live st key v n t t h0 (by omega), scrubData_of_isPure v hv]

/-- C3 witness: the round trip applied to a concrete flashcard object with
ttl 1000 at time 3. -/
theorem c3_set_then_get_returns_deep_equal_value_witness :
    CacheManager.get
        (CacheManager.set [] .flashcards (.obj [("front", .str "q"), ("back", .str "a")])
          (some 1000) 3 false) .flashcards 3 =
      (.obj [("front", .str "q"), ("back", .str "a")],
        CacheManager.set [] .flashcards (.obj [("front", .str "q"), ("back", .str "a")])
          (some 1000) 3 false) :=
  c3_set_then_get_returns_deep_equal_value [] .flashcards
    (.obj [("front", .str "q"), ("back", .str "a")]) (some 1000) 3
    rfl (by intro n h; injection h with h2; omega)

/-- C4: clear() empties every slot of the Cache Key Registry: after clear(),
get returns a miss and has returns false for each of the seven registered
keys, on every starting storage — in particular one where some or all slots
were never set — and clear itself is a total operation on the model. -/
theorem c4_clear_empties_every_registry_slot (st : Storage) (k : CacheKey) (now : Int) :
    CacheManager.get (CacheManager.clear st) k now = (.null, CacheManager.clear st) ∧
    (CacheManager.has (CacheManager.clear st) k now).1 = false := by
  refine ⟨get_clear st k now, ?_⟩
  simp [CacheManager.has, get_clear st k now, CacheManager.notNull]

/-- C6: for every key, if the stored string under that key is corrupted so
that parsing fails, the body of get throws — and the catch turns this into
the miss signal: get returns null with the storage unchanged, surfacing no
error to the caller. -/
theorem c6_corrupt_entry_returns_miss (st : Storage) (key : CacheKey) (now : Int)
    (h : st.getItem (CacheManager.getKey key) = some .unparseable) :
    CacheManager.getBody st key now = .error () ∧
    CacheManager.get st key now = (.null, st) := by
  constructor
  · simp [CacheManager.getBody, h, jsonParse, bind, Except.bind]
  · simp [CacheManager.get, CacheManager.getBody, h, jsonParse, bind, Except.bind]

/-- C6 witness: the theorem applied to a storage whose summary slot holds an
unparseable string. -/
theorem c6_corrupt_entry_returns_miss_witness :
    CacheManager.getBody [("eduseva_summary", .unparseable)] .summary 0 = .error () ∧
    CacheManager.get [("eduseva_summary", .unparseable)] .summary 0 =
      (.null, [("eduseva_summary", .unparseable)]) :=
  c6_corrupt_entry_returns_miss [("eduseva_summary", .unparseable)] .summary 0 rfl

/-- C7: set never fails the caller visibly: for every input, including a
storage error on the write, the try/catch makes set return normally (the
exception-level semantics always yields ok), and on such an error the write
is silently dropped, leaving the stored state — in particular the previous
value for that key — unchanged. -/
theorem c7_set_never_throws_and_drops_failed_write (st : Storage) (key : CacheKey)
    (v : JsVal) (e : Option Int) (t : Int) (f : Bool) :
    CacheManager.setE st key v e t f = .ok (CacheManager.set st key v e t f) ∧
    (f = true → CacheManager.set st key v e t f = st) := by
  constructor
  · cases f <;> simp [CacheManager.setE, CacheManager.setBody, CacheManager.set]
  · intro hf; subst hf; simp [CacheManager.set, CacheManager.setE, CacheManager.setBody]

/-- C7 witness: the theorem applied with a failing storage write over a
populated store. -/
theorem c7_set_never_throws_and_drops_failed_write_witness :
    CacheManager.setE [("eduseva_quiz", .unparseable)] .quiz (.str "a") none 0 true =
      .ok (CacheManager.set [("eduseva_quiz", .unparseable)] .quiz (.str "a") none 0 true) ∧
    (true = true →
      CacheManager.set [("eduseva_quiz", .unparseable)] .quiz (.str "a") none 0 true =
        [("eduseva_quiz", .unparseable)]) :=
  c7_set_never_throws_and_drops_failed_write [("eduseva_quiz", .unparseable)] .quiz
    (.str "a") none 0 true

/-- C8: an entry written with a ttl of exactly 0 never expires by time: the
expiry branch only runs when the stored expiresIn field is truthy and 0 is
falsy, so get returns the value at any later time, and the read observes the
same value as after a set with no ttl at all. -/
theorem c8_zero_ttl_never_expires (st : Storage) (key : CacheKey) (v : JsVal)
    (t0 now : Int) (hv : isPure v = true) :
    CacheManager.get (CacheManager.set st key v (some 0) t0 false) key now =
      (v, CacheManager.set st key v (some 0) t0 false) ∧
    (CacheManager.get (CacheManager.set st key v (some 0) t0 false) key now).1 =
      (CacheManager.get (CacheManager.set st key v none t0 false) key now).1 := by
  rw [get_set_zero, get_set_none, scrubData_of_isPure v hv]
  exact ⟨rfl, rfl⟩

/-- C8 witness: the theorem applied with a write at time 0 and a read at time
999999. -/
theorem c8_zero_ttl_never_expires_witness :
    CacheManager.get (CacheManager.set [] .podcast (.str "p") (some 0) 0 false) .podcast 999999 =
      (.str "p", CacheManager.set [] .podcast (.str "p") (some 0) 0 false) ∧
    (CacheManager.get (CacheManager.set [] .podcast (.str "p") (some 0) 0 false)
        .podcast 999999).1 =
      (CacheManager.get (CacheManager.set [] .podcast (.str "p") none 0 false)
        .podcast 999999).1 :=
  c8_zero_ttl_never_expires [] .podcast (.str "p") 0 999999 rfl

/-- C9: if the stored string parses successfully as JSON but the result is a
number, string or boolean — so it has no data field — get returns the
undefined data field rather than the null miss signal, and has, which tests
the result against null, reports a hit. -/
theorem c9_primitive_json_is_reported_hit (st : Storage) (key : CacheKey) (now : Int)
    (v : JsVal) (h : st.getItem (CacheManager.getKey key) = some (.parsed v))
    (hp : isPrimitiveJson v = true) :
    CacheManager.get st key now = (.undef, st) ∧
    (CacheManager.has st key now).1 = true := by
  have hg : CacheManager.get st key now = (.undef, st) := by
    cases v <;> simp [isPrimitiveJson] at hp <;>
      simp [CacheManager.get, CacheManager.getBody, h, jsonParse, getField, truthy,
        bind, Except.bind, pure, Except.pure]
  exact ⟨hg, by simp [CacheManager.has, hg, CacheManager.notNull]⟩

/-- C9 witness: the theorem applied to a storage whose quiz slot holds the
string that parses to the JSON number 5. -/
theorem c9_primitive_json_is_reported_hit_witness :
    CacheManager.get [("eduseva_quiz", .parsed (.num 5))] .quiz 0 =
      (.undef, [("eduseva_quiz", .parsed (.num 5))]) ∧
    (CacheManager.has [("eduseva_quiz", .parsed (.num 5))] .quiz 0).1 = true :=
  c9_primitive_json_is_reported_hit [("eduseva_quiz", .parsed (.num 5))] .quiz 0
    (.num 5) rfl rfl

/-- C10: clear removes exactly the seven registry keys under the fixed
namespace: every storage key that is not one of the seven namespaced keys is
left unchanged by clear, by set on any registry key, and by remove on any
registry key. -/
theorem c10_operations_touch_only_namespaced_keys (st : Storage) (x : String)
    (k : CacheKey) (v : JsVal) (e : Option Int) (t : Int) (f : Bool)
    (h : x ∉ CACHE_KEYS.map CacheManager.getKey) :
    (CacheManager.clear st).getItem x = st.getItem x ∧
    (CacheManager.set st k v e t f).getItem x = st.getItem x ∧
    (CacheManager.remove st k).getItem x = st.getItem x := by
  have hx : ∀ k2 : CacheKey, x ≠ CacheManager.getKey k2 := by
    intro k2 hk
    exact h (by rw [hk]; exact List.mem_map_of_mem _ (mem_CACHE_KEYS k2))
  refine ⟨?_, ?_, ?_⟩
  · have hall : ∀ (ks : List CacheKey) (s : Storage),
        (ks.foldl (fun s2 k2 => CacheManager.remove s2 k2) s).getItem x = s.getItem x := by
      intro ks
      induction ks with
      | nil => intro s; rfl
      | cons a tl ih =>
        intro s
        simp only [List.foldl_cons]
        rw [ih]
        simp [CacheManager.remove, Storage.getItem_removeItem, hx a]
    exact hall CACHE_KEYS st
  · cases f
    · rw [set_false_eq]
      simp [Storage.getItem_setItem, hx k]
    · simp [CacheManager.set, CacheManager.setE, CacheManager.setBody]
  · simp [CacheManager.remove, Storage.getItem_removeItem, hx k]

/-- C10 witness: the theorem applied to a foreign storage key named theme. -/
theorem c10_operations_touch_only_namespaced_keys_witness :
    (CacheManager.clear [("theme", .parsed (.str "dark"))]).getItem "theme" =
      Storage.getItem [("theme", .parsed (.str "dark"))] "theme" ∧
    (CacheManager.set [("theme", .parsed (.str "dark"))] .quiz (.str "a") none 0 false).getItem
        "theme" = Storage.getItem [("theme", .parsed (.str "dark"))] "theme" ∧
    (CacheManager.remove [("theme", .parsed (.str "dark"))] .quiz).getItem "theme" =
      Storage.getItem [("theme", .parsed (.str "dark"))] "theme" :=
  c10_operations_touch_only_namespaced_keys [("theme", .parsed (.str "dark"))] "theme"
    .quiz (.str "a") none 0 false (by decide)

end EduSeva
